import Mathlib

/-!
Verification of the Room Coordination & Messaging Core of a real-time chat
application. The definitions below are a shallow embedding of the TypeScript
source: the Next.js middleware (atomic capacity admission against the
`connected:{roomId}` Redis set) and the Elysia API route
(`src/app/api/[[...slugs]]/route.ts`: create, join, ttl, leave, destroy,
message post and message list). Redis state for a single room is modelled
explicitly; each handler becomes a pure function from state to
(result, new state, emitted events).
-/

namespace Chat

/-! ### Atomic capacity-limited admission (middleware Lua script)

The middleware runs, as one indivisible Redis script:
`local count = redis.call('SCARD', KEYS[1]); if count >= 2 then return 0 end;
redis.call('SADD', KEYS[1], ARGV[1]); return 1`.
Because the script is atomic on the store side, any interleaving of
concurrent attempts is equivalent to some sequential order of script runs,
so a list of attempted tokens models every interleaving. `true` models the
script returning 1 (token added), `false` models 0 (denied). -/

/-- One run of the atomic admission script on the membership set `s` with
candidate token `t`: read cardinality; if it is at least 2, deny without
modifying the set; otherwise insert the token and report admission. -/
def grantSlot (s : Finset String) (t : String) : Bool × Finset String :=
  if 2 ≤ s.card then (false, s) else (true, insert t s)

/-- The membership set after a sequence of admission attempts. -/
def runGrants (s : Finset String) : List String → Finset String
  | [] => s
  | t :: ts => runGrants (grantSlot s t).2 ts

/-- How many attempts in the sequence were admitted (script returned 1). -/
def countGranted (s : Finset String) : List String → Nat
  | [] => 0
  | t :: ts => (if (grantSlot s t).1 then 1 else 0) + countGranted (grantSlot s t).2 ts

lemma runGrants_nil (s : Finset String) : runGrants s [] = s := rfl

lemma runGrants_cons (s : Finset String) (t : String) (ts : List String) :
    runGrants s (t :: ts) = runGrants (grantSlot s t).2 ts := rfl

lemma card_grantSlot_le (s : Finset String) (t : String) (h : s.card ≤ 2) :
    (grantSlot s t).2.card ≤ 2 := by
  unfold grantSlot
  by_cases h2 : 2 ≤ s.card
  · simpa [h2] using h
  · have hlt : s.card ≤ 1 := by omega
    simp only [h2, if_false]
    calc (insert t s).card ≤ s.card + 1 := Finset.card_insert_le t s
    _ ≤ 2 := by omega

lemma card_runGrants_le (ts : List String) (s : Finset String) (h : s.card ≤ 2) :
    (runGrants s ts).card ≤ 2 := by
  induction ts generalizing s with
  | nil => simpa [runGrants]
  | cons t ts ih =>
    rw [runGrants_cons]
    exact ih _ (card_grantSlot_le s t h)

lemma countGranted_eq_card_gain (ts : List String) (s : Finset String)
    (hnd : ts.Nodup) (hfresh : ∀ t ∈ ts, t ∉ s) :
    s.card + countGranted s ts = (runGrants s ts).card := by
  induction ts generalizing s with
  | nil => simp [countGranted, runGrants]
  | cons t ts ih =>
    have hnd' : ts.Nodup := hnd.of_cons
    have htns : t ∉ s := hfresh t (List.mem_cons_self t ts)
    rw [runGrants_cons]
    unfold countGranted grantSlot
    by_cases h2 : 2 ≤ s.card
    · simp only [h2, if_true, if_false, Bool.false_eq_true, Nat.zero_add]
      exact ih s hnd' (fun u hu => hfresh u (List.mem_cons_of_mem t hu))
    · simp only [h2, if_false, if_true]
      have hcard : (insert t s).card = s.card + 1 := Finset.card_insert_of_not_mem htns
      have hfresh' : ∀ u ∈ ts, u ∉ insert t s := by
        intro u hu
        have hut : u ≠ t := by
          intro he
          exact (List.nodup_cons.mp hnd).1 (he ▸ hu)
        have hus : u ∉ s := hfresh u (List.mem_cons_of_mem t hu)
        simp [Finset.mem_insert, hut, hus]
      have := ih (insert t s) hnd' hfresh'
      omega

/-! ### API route state model

Per-room Redis state touched by the Elysia route handlers. `meta` models the
hash at key `meta:{roomId}` (absent = `none`), `metaTtl` its remaining
expiration in seconds, `log` the list at `messages:{roomId}` (a Redis list
exists exactly when it is non-empty, so `[]` models the deleted key) and
`msgTtl` that list's remaining expiration. -/

/-- The room metadata hash written by `/room/create` and updated by join and
leave: `connected` tokens, creation time, room `type` (the string `group` or
`private`) and the ordered `users` display-name list. -/
structure RoomMeta where
  connected : List String
  createdAt : Nat
  type : String
  users : List String
deriving DecidableEq

/-- A chat message as constructed by `POST /messages` (the shape broadcast in
the `chat.message` event, without the author token). -/
structure Message where
  id : String
  sender : String
  text : String
  timestamp : Nat
  roomId : String
deriving DecidableEq

/-- What `rpush` actually stores: the message together with the author's
session token (`{...message, token: auth.token}`). -/
structure StoredMessage where
  msg : Message
  token : String
deriving DecidableEq

/-- A message as returned to a caller of `GET /messages`: the token field is
an `Option`, `none` modelling the `undefined` the handler substitutes for
other authors' tokens. -/
structure ClientMessage where
  msg : Message
  token : Option String
deriving DecidableEq

/-- The store state for one room. -/
structure RoomState where
  meta : Option RoomMeta
  metaTtl : Nat
  log : List StoredMessage
  msgTtl : Nat
deriving DecidableEq

/-- Events published on the room channel by the handlers. `user_left`
carries an `Option` username because the handler reads
`meta.users[tokenIndex]`, which is `undefined` when the token is not in the
`connected` list. -/
inductive Event where
  | user_joined (username : String)
  | user_left (username : Option String)
  | message (payload : Message)
  | destroy
deriving DecidableEq

/-- Result of `/room/join`. -/
inductive JoinResult where
  | err (code : String)
  | ok (roomId token type : String)
deriving DecidableEq

/-- Constant `ROOM_TTL_SECONDS = 60 * 10` from the route module. -/
def ROOM_TTL_SECONDS : Nat := 60 * 10

/-- Constant `MAX_PRIVATE_USERS = 2` from the route module. -/
def MAX_PRIVATE_USERS : Nat := 2

/-- Handler `POST /room/create`: writes a fresh metadata hash with the creator's
token and username, sets its TTL to `ROOM_TTL_SECONDS`, and returns
`{roomId, token, type}`. `rid` and `tok` stand for the two `nanoid()` draws
and `now` for `Date.now()`. -/
def createRoom (rid tok uname ty : String) (now : Nat) :
    (String × String × String) × RoomState :=
  ((rid, tok, ty),
   { meta := some { connected := [tok], createdAt := now, type := ty, users := [uname] },
     metaTtl := ROOM_TTL_SECONDS,
     log := [],
     msgTtl := 0 })

/-- Handler `POST /room/join`: returns `room-not-found` when the metadata hash is absent;
`room-full` when the room is `private` and `users.length >= MAX_PRIVATE_USERS`;
otherwise appends the username and a fresh token (`tok`) to the metadata,
emits `chat.user_joined {username}` and returns `{roomId, token, type}`. -/
def joinRoom (st : RoomState) (rid tok uname : String) :
    JoinResult × RoomState × List Event :=
  match st.meta with
  | none => (JoinResult.err "room-not-found", st, [])
  | some meta =>
    if meta.type = "private" ∧ MAX_PRIVATE_USERS ≤ meta.users.length then
      (JoinResult.err "room-full", st, [])
    else
      (JoinResult.ok rid tok meta.type,
       { st with meta := some { meta with users := meta.users ++ [uname],
                                          connected := meta.connected ++ [tok] } },
       [Event.user_joined uname])

/-- JavaScript `Array.prototype.indexOf`: first index of `t` in `l`, or `-1`
when absent, as used by the leave handler (`meta.connected.indexOf(auth.token)`). -/
def jsIndexOfAux : List String → String → Nat → Int
  | [], _, _ => -1
  | x :: xs, t, i => if x = t then (i : Int) else jsIndexOfAux xs t (i + 1)

/-- See `jsIndexOfAux`; entry point starting at index 0. -/
def jsIndexOf (l : List String) (t : String) : Int :=
  jsIndexOfAux l t 0

/-- JavaScript indexing `l[i]` with a possibly negative `Int` index:
`undefined` (here `none`) for a negative or out-of-range index, as in
`meta.users[tokenIndex]`. -/
def jsGetElem (l : List String) (i : Int) : Option String :=
  if i < 0 then none else l[i.toNat]?

/-- JavaScript `filter((_, i) => i !== j)`: drop the element whose position
equals `j` (a no-op when `j` is `-1` or out of range), as in the leave
handler's `meta.users.filter((_, i) => i !== tokenIndex)`. -/
def filterIdxNe (l : List String) (j : Int) : List String :=
  (l.enum.filter (fun p => ((p.1 : Int) ≠ j : Bool))).map (fun p => p.2)

/-- Handler `DELETE /room/leave` (runs after auth middleware): returns
`{success: false}` untouched when the metadata hash is gone; otherwise finds
the username at the token's position, removes name and token, and either
destroys the room (deleting metadata and message log and emitting
`chat.destroy`) when the resulting user list is empty, or persists the
updated metadata and emits `chat.user_left {username}`. -/
def leaveRoom (st : RoomState) (tok : String) : Bool × RoomState × List Event :=
  match st.meta with
  | none => (false, st, [])
  | some meta =>
    let tokenIndex : Int := jsIndexOf meta.connected tok
    let username : Option String := jsGetElem meta.users tokenIndex
    let updatedUsers : List String := filterIdxNe meta.users tokenIndex
    let updatedConnected : List String := meta.connected.filter (fun t => t ≠ tok)
    if updatedUsers.length = 0 then
      (true, { st with meta := none, log := [], msgTtl := 0 }, [Event.destroy])
    else
      (true,
       { st with meta := some { meta with users := updatedUsers,
                                          connected := updatedConnected } },
       [Event.user_left username])

/-- The `meta?.type === "group"` test of the manual-destroy handler (false
when the metadata hash is absent). -/
def metaIsGroup (st : RoomState) : Bool :=
  match st.meta with
  | some m => m.type = "group"
  | none => false

/-- Handler `DELETE /room/`: throws `Cannot manually destroy group rooms` when the
room type is `group`; otherwise emits `chat.destroy` and deletes both the
metadata hash and the message log, returning `{success: true}`. -/
def destroyRoom (st : RoomState) : Except String Unit × RoomState × List Event :=
  if metaIsGroup st then
    (Except.error "Cannot manually destroy group rooms", st, [])
  else
    (Except.ok (), { st with meta := none, log := [], msgTtl := 0 }, [Event.destroy])

/-- Handler `POST /messages/`: throws `Room does not exist` when the metadata hash is
absent; otherwise appends `{...message, token}` to the log, emits
`chat.message` with the token-free message, reads the metadata's remaining
TTL and resets the log's TTL to that value. `mid` stands for the `nanoid()`
message id and `now` for `Date.now()`. -/
def postMessage (st : RoomState) (rid mid sender text : String) (now : Nat)
    (tok : String) : Except String Unit × RoomState × List Event :=
  match st.meta with
  | none => (Except.error "Room does not exist", st, [])
  | some _ =>
    let message : Message :=
      { id := mid, sender := sender, text := text, timestamp := now, roomId := rid }
    let remaining : Nat := st.metaTtl
    (Except.ok (),
     { st with log := st.log ++ [{ msg := message, token := tok }],
               msgTtl := remaining },
     [Event.message message])

/-- Handler `GET /messages/`: returns the whole log (`lrange 0 -1`), mapping each
stored message to `{...m, token: m.token === auth.token ? auth.token : undefined}`. -/
def listMessages (st : RoomState) (tok : String) : List ClientMessage :=
  st.log.map (fun m =>
    { msg := m.msg, token := if m.token = tok then some tok else none })

/-- Redis `TTL meta:{roomId}`: `-2` for an absent key, else the remaining
seconds. -/
def redisTtlMeta (st : RoomState) : Int :=
  match st.meta with
  | none => -2
  | some _ => (st.metaTtl : Int)

/-- Handler `GET /room/ttl`: returns `{ttl: ttl > 0 ? ttl : 0}`. -/
def getTtl (st : RoomState) : Int :=
  let ttl := redisTtlMeta st
  if ttl > 0 then ttl else 0

/-- Passive store-side expiry of the metadata key: after `e` seconds the
remaining TTL shrinks by `e`, and the key vanishes once it reaches zero.
Only the metadata clock is modelled here because it is the only TTL the
handlers ever read. -/
def elapse (st : RoomState) (e : Nat) : RoomState :=
  if e < st.metaTtl then { st with metaTtl := st.metaTtl - e }
  else { st with meta := none, metaTtl := 0 }

/-! ### Concrete sample states used by witnesses and counterexamples -/

/-- A state whose metadata hash is absent (expired or destroyed room). -/
def stGone : RoomState :=
  { meta := none, metaTtl := 0, log := [], msgTtl := 0 }

/-- Metadata of a fresh private room with one member. -/
def mOne : RoomMeta :=
  { connected := ["t1"], createdAt := 5, type := "private", users := ["alice"] }

/-- State of a fresh private room with one member. -/
def stOne : RoomState :=
  { meta := some mOne, metaTtl := 600, log := [], msgTtl := 0 }

/-- Metadata of a full private room (two members). -/
def mTwo : RoomMeta :=
  { connected := ["t1", "t2"], createdAt := 5, type := "private", users := ["alice", "bob"] }

/-- State of a full private room. -/
def stTwo : RoomState :=
  { meta := some mTwo, metaTtl := 300, log := [], msgTtl := 0 }

/-- Metadata of a group room with one member. -/
def mGrp : RoomMeta :=
  { connected := ["t1"], createdAt := 5, type := "group", users := ["alice"] }

/-- State of a group room. -/
def stGrp : RoomState :=
  { meta := some mGrp, metaTtl := 300, log := [], msgTtl := 0 }

/-! ### Claim theorems -/

/-- C1: every interleaving of concurrent attempts through the atomic
admission script is a sequential run of the script; a denied attempt (when
the set already holds at least 2 tokens) leaves the set unchanged, an
admitted attempt inserts the fresh token, the set's cardinality never
exceeds 2 at any point of the run, and a run over fresh (pairwise distinct)
tokens starting from the empty set admits at most 2 of them. -/
theorem atomic_admission_capacity (ts : List String) (h : ts.Nodup) :
    (∀ s t, 2 ≤ s.card → grantSlot s t = (false, s)) ∧
    (∀ s t, s.card < 2 → grantSlot s t = (true, insert t s)) ∧
    (∀ n, (runGrants ∅ (ts.take n)).card ≤ 2) ∧
    countGranted ∅ ts ≤ 2 := by
  refine ⟨?_, ?_, ?_, ?_⟩
  · intro s t h2
    simp [grantSlot, h2]
  · intro s t hlt
    simp [grantSlot, Nat.not_le.mpr hlt]
  · intro n
    exact card_runGrants_le (ts.take n) ∅ (by simp)
  · have h1 := countGranted_eq_card_gain ts ∅ h (by simp)
    have h2 := card_runGrants_le ts ∅ (by simp)
    omega

/-- Witness for C1 at the concrete attempt sequence `["a", "b", "c"]`. -/
theorem atomic_admission_capacity_witness :
    countGranted ∅ ["a", "b", "c"] ≤ 2 :=
  (atomic_admission_capacity ["a", "b", "c"] (by decide)).2.2.2

/-- C2 counterexample: the claim says a leave call on a room whose metadata
record is absent returns success, but the handler returns
`{success: false}` there. -/
theorem leave_gone_counterexample : ¬ ((leaveRoom stGone "t1").1 = true) := by
  decide

/-- C2 (amended): a leave call on a room whose metadata record is absent
returns `{success: false}` and performs no side effects: the state is
unchanged and no event is emitted. -/
theorem leave_gone_noop (st : RoomState) (tok : String) (h : st.meta = none) :
    leaveRoom st tok = (false, st, []) := by
  simp [leaveRoom, h]

/-- Witness for the amended C2 at a concrete absent-room state. -/
theorem leave_gone_noop_witness : leaveRoom stGone "t1" = (false, stGone, []) :=
  leave_gone_noop stGone "t1" rfl

/-- C3: join returns `room-not-found` when the metadata record is absent;
returns `room-full` when the room is private with at least 2 members;
otherwise appends the display name to the user list and the fresh token to
the connected list, emits a `user_joined` event carrying the display name,
and returns `(roomId, token, type)`. -/
theorem join_functional (st : RoomState) (rid tok uname : String) :
    (st.meta = none →
      joinRoom st rid tok uname = (JoinResult.err "room-not-found", st, [])) ∧
    (∀ m, st.meta = some m → m.type = "private" → 2 ≤ m.users.length →
      joinRoom st rid tok uname = (JoinResult.err "room-full", st, [])) ∧
    (∀ m, st.meta = some m → ¬ (m.type = "private" ∧ 2 ≤ m.users.length) →
      joinRoom st rid tok uname =
        (JoinResult.ok rid tok m.type,
         { st with meta := some { m with users := m.users ++ [uname],
                                         connected := m.connected ++ [tok] } },
         [Event.user_joined uname])) := by
  refine ⟨?_, ?_, ?_⟩
  · intro h
    simp [joinRoom, h]
  · intro m hm hty hlen
    simp [joinRoom, hm, MAX_PRIVATE_USERS, hty, hlen]
  · intro m hm hno
    simp [joinRoom, hm, MAX_PRIVATE_USERS, hno]

/-- Witness for C3: the three branches at concrete states (absent room, full
private room, private room with one free slot). -/
theorem join_functional_witness :
    joinRoom stGone "r" "t9" "carol" = (JoinResult.err "room-not-found", stGone, []) ∧
    joinRoom stTwo "r" "t9" "carol" = (JoinResult.err "room-full", stTwo, []) ∧
    joinRoom stOne "r" "t9" "bob" =
      (JoinResult.ok "r" "t9" "private",
       { stOne with meta := some { mOne with users := mOne.users ++ ["bob"],
                                             connected := mOne.connected ++ ["t9"] } },
       [Event.user_joined "bob"]) := by
  refine ⟨(join_functional stGone "r" "t9" "carol").1 rfl,
          (join_functional stTwo "r" "t9" "carol").2.1 mTwo rfl rfl (by decide),
          (join_functional stOne "r" "t9" "bob").2.2 mOne rfl (by decide)⟩

/-! ### Helper lemmas about the JavaScript-style list operations -/

lemma jsIndexOfAux_not_mem (l : List String) (t : String) (i : Nat) (h : t ∉ l) :
    jsIndexOfAux l t i = -1 := by
  induction l generalizing i with
  | nil => rfl
  | cons x xs ih =>
    have hx : x ≠ t := fun he => h (by simp [he])
    have hxs : t ∉ xs := fun hm => h (List.mem_cons_of_mem x hm)
    simp [jsIndexOfAux, hx, ih _ hxs]

lemma jsIndexOf_not_mem (l : List String) (t : String) (h : t ∉ l) :
    jsIndexOf l t = -1 :=
  jsIndexOfAux_not_mem l t 0 h

lemma jsGetElem_neg (l : List String) (i : Int) (h : i < 0) :
    jsGetElem l i = none := by
  simp [jsGetElem, h]

lemma filterIdxNe_neg (l : List String) (j : Int) (h : j < 0) :
    filterIdxNe l j = l := by
  unfold filterIdxNe
  have hf : l.enum.filter (fun p => ((p.1 : Int) ≠ j : Bool)) = l.enum := by
    apply List.filter_eq_self.mpr
    intro p _
    have : ((p.1 : Int)) ≠ j := by
      have : (0 : Int) ≤ (p.1 : Int) := Int.ofNat_nonneg p.1
      omega
    simpa using this
  rw [hf, List.enum_map_snd]

lemma filter_ne_of_not_mem (l : List String) (tok : String) (h : tok ∉ l) :
    l.filter (fun t => t ≠ tok) = l := by
  apply List.filter_eq_self.mpr
  intro a ha
  have : a ≠ tok := fun he => h (he ▸ ha)
  simpa using this

/-- C4: when the member sequence becomes empty after removal (the caller's
token was the only live one), leave destroys the room: it deletes the
metadata record and the message log, emits exactly one `chat.destroy` event
and no `user_left` event, returns success, and afterwards neither record
exists. -/
theorem leave_last_destroys (st : RoomState) (m : RoomMeta) (tok : String)
    (hm : st.meta = some m)
    (hempty : filterIdxNe m.users (jsIndexOf m.connected tok) = []) :
    leaveRoom st tok =
      (true, { st with meta := none, log := [], msgTtl := 0 }, [Event.destroy]) ∧
    (leaveRoom st tok).2.1.meta = none ∧
    (leaveRoom st tok).2.1.log = [] := by
  have h1 : leaveRoom st tok =
      (true, { st with meta := none, log := [], msgTtl := 0 }, [Event.destroy]) := by
    simp [leaveRoom, hm, hempty]
  exact ⟨h1, by rw [h1], by rw [h1]⟩

/-- Witness for C4: the sole member of a one-member private room leaves. -/
theorem leave_last_destroys_witness :
    leaveRoom stOne "t1" =
      (true, { stOne with meta := none, log := [], msgTtl := 0 }, [Event.destroy]) ∧
    (leaveRoom stOne "t1").2.1.meta = none ∧
    (leaveRoom stOne "t1").2.1.log = [] :=
  leave_last_destroys stOne mOne "t1" rfl (by decide)

/-- C5: manual destroy of a `group` room fails with the forbidden error and
deletes nothing; in every other case (any non-group room, including an
already absent record) it emits exactly one `chat.destroy` event, deletes
the metadata record and the message log regardless of remaining members,
and returns success. -/
theorem destroy_functional (st : RoomState) :
    (∀ m, st.meta = some m → m.type = "group" →
      destroyRoom st = (Except.error "Cannot manually destroy group rooms", st, [])) ∧
    ((∀ m, st.meta = some m → m.type ≠ "group") →
      destroyRoom st =
        (Except.ok (), { st with meta := none, log := [], msgTtl := 0 },
         [Event.destroy])) := by
  constructor
  · intro m hm hty
    simp [destroyRoom, metaIsGroup, hm, hty]
  · intro hno
    cases hmeta : st.meta with
    | none => simp [destroyRoom, metaIsGroup, hmeta]
    | some m => simp [destroyRoom, metaIsGroup, hmeta, hno m hmeta]

/-- Witness for C5: destroying a group room fails; destroying a full private
room (two members still present) succeeds and wipes both records. -/
theorem destroy_functional_witness :
    destroyRoom stGrp = (Except.error "Cannot manually destroy group rooms", stGrp, []) ∧
    destroyRoom stTwo =
      (Except.ok (), { stTwo with meta := none, log := [], msgTtl := 0 },
       [Event.destroy]) := by
  constructor
  · exact (destroy_functional stGrp).1 mGrp rfl rfl
  · refine (destroy_functional stTwo).2 ?_
    intro m hm
    have hm' : some mTwo = some m := hm
    injection hm' with h
    subst h
    decide

/-- C6: posting a message to a room whose metadata record is absent fails
with the room-not-found error and has no side effects: the log is
unchanged, no `chat.message` event is emitted and no TTL is touched. -/
theorem post_room_gone (st : RoomState) (rid mid sender text : String)
    (now : Nat) (tok : String) (h : st.meta = none) :
    postMessage st rid mid sender text now tok =
      (Except.error "Room does not exist", st, []) := by
  simp [postMessage, h]

/-- Witness for C6 at a concrete absent-room state. -/
theorem post_room_gone_witness :
    postMessage stGone "r" "m1" "alice" "hi" 7 "t1" =
      (Except.error "Room does not exist", stGone, []) :=
  post_room_gone stGone "r" "m1" "alice" "hi" 7 "t1" rfl

/-- A first sample message (authored under token `t1`). -/
def msgA : Message :=
  { id := "m1", sender := "alice", text := "hi", timestamp := 10, roomId := "r" }

/-- A second sample message (authored under token `t2`). -/
def msgB : Message :=
  { id := "m2", sender := "bob", text := "yo", timestamp := 11, roomId := "r" }

/-- A full private room holding two messages by different authors. -/
def stMsgs : RoomState :=
  { meta := some mTwo, metaTtl := 300,
    log := [{ msg := msgA, token := "t1" }, { msg := msgB, token := "t2" }],
    msgTtl := 300 }

/-- C7: listing messages returns the full log in exact append order (same
length, the i-th returned message comes from the i-th stored one), and a
returned message's token field is present exactly when the stored token
equals the requesting token, in which case it equals it. -/
theorem list_messages_visibility (st : RoomState) (tok : String) :
    (listMessages st tok).length = st.log.length ∧
    (∀ (i : Nat) (sm : StoredMessage) (cm : ClientMessage),
      st.log[i]? = some sm → (listMessages st tok)[i]? = some cm →
      cm.msg = sm.msg ∧
      (cm.token ≠ none ↔ sm.token = tok) ∧
      (sm.token = tok → cm.token = some sm.token)) := by
  constructor
  · simp [listMessages]
  · intro i sm cm h1 h2
    rw [listMessages, List.getElem?_map, h1] at h2
    have hcm : { msg := sm.msg, token := if sm.token = tok then some tok else none } =
        cm := by
      injection h2
    subst hcm
    by_cases he : sm.token = tok
    · simp [he]
    · simp [he]

/-- Witness for C7: in a room with messages from tokens `t1` and `t2`,
requesting as `t1` exposes the token on the own message at index 0 and
omits it on the other author's message at index 1. -/
theorem list_messages_visibility_witness :
    (listMessages stMsgs "t1").length = stMsgs.log.length ∧
    (({ msg := msgA, token := some "t1" } : ClientMessage).msg =
        ({ msg := msgA, token := "t1" } : StoredMessage).msg ∧
      (({ msg := msgA, token := some "t1" } : ClientMessage).token ≠ none ↔
        ({ msg := msgA, token := "t1" } : StoredMessage).token = "t1") ∧
      (({ msg := msgA, token := "t1" } : StoredMessage).token = "t1" →
        ({ msg := msgA, token := some "t1" } : ClientMessage).token =
          some ({ msg := msgA, token := "t1" } : StoredMessage).token)) ∧
    (({ msg := msgB, token := none } : ClientMessage).msg =
        ({ msg := msgB, token := "t2" } : StoredMessage).msg ∧
      (({ msg := msgB, token := none } : ClientMessage).token ≠ none ↔
        ({ msg := msgB, token := "t2" } : StoredMessage).token = "t1") ∧
      (({ msg := msgB, token := "t2" } : StoredMessage).token = "t1" →
        ({ msg := msgB, token := none } : ClientMessage).token =
          some ({ msg := msgB, token := "t2" } : StoredMessage).token)) := by
  refine ⟨(list_messages_visibility stMsgs "t1").1, ?_, ?_⟩
  · exact (list_messages_visibility stMsgs "t1").2 0
      { msg := msgA, token := "t1" } { msg := msgA, token := some "t1" }
      (by decide) (by decide)
  · exact (list_messages_visibility stMsgs "t1").2 1
      { msg := msgB, token := "t2" } { msg := msgB, token := none }
      (by decide) (by decide)

/-- C8: a successful message append sets the message log's TTL to the
metadata record's remaining TTL as read just before the reset, and leaves
the metadata record and its TTL untouched, so posting never extends the
room's lifetime. -/
theorem post_ttl_sync (st : RoomState) (rid mid sender text : String)
    (now : Nat) (tok : String) (m : RoomMeta) (hm : st.meta = some m) :
    (postMessage st rid mid sender text now tok).2.1.msgTtl = st.metaTtl ∧
    (postMessage st rid mid sender text now tok).2.1.metaTtl = st.metaTtl ∧
    (postMessage st rid mid sender text now tok).2.1.meta = st.meta := by
  simp [postMessage, hm]

/-- Witness for C8 at a room whose metadata has 300 seconds left: the log
TTL is reset to 300, not to the original 600. -/
theorem post_ttl_sync_witness :
    (postMessage stMsgs "r" "m3" "alice" "again" 12 "t1").2.1.msgTtl = stMsgs.metaTtl ∧
    (postMessage stMsgs "r" "m3" "alice" "again" 12 "t1").2.1.metaTtl = stMsgs.metaTtl ∧
    (postMessage stMsgs "r" "m3" "alice" "again" 12 "t1").2.1.meta = stMsgs.meta :=
  post_ttl_sync stMsgs "r" "m3" "alice" "again" 12 "t1" mTwo rfl

/-- C9: the ttl endpoint never returns a negative number, returns 0 when the
store reports the metadata key absent, and read within 9 seconds of room
creation it returns a value above 590 and at most 600. -/
theorem ttl_nonneg_and_fresh :
    (∀ st, 0 ≤ getTtl st) ∧
    (∀ st, st.meta = none → getTtl st = 0) ∧
    (∀ rid tok uname ty : String, ∀ now e : Nat, e ≤ 9 →
      590 < getTtl (elapse (createRoom rid tok uname ty now).2 e) ∧
      getTtl (elapse (createRoom rid tok uname ty now).2 e) ≤ 600) := by
  refine ⟨?_, ?_, ?_⟩
  · intro st
    simp only [getTtl]
    split <;> omega
  · intro st h
    simp [getTtl, redisTtlMeta, h]
  · intro rid tok uname ty now e he
    have h600 : e < 600 := by omega
    have hcr : (createRoom rid tok uname ty now).2.metaTtl = 600 := rfl
    simp only [getTtl, redisTtlMeta, elapse, hcr, h600, if_pos]
    simp only [createRoom]
    have hpos : (0 : Int) < ((600 - e : Nat) : Int) := by omega
    constructor
    · simp only [if_pos hpos]
      omega
    · simp only [if_pos hpos]
      omega

/-- Witness for C9: reading the TTL right at creation (0 seconds elapsed)
gives a value in the required range. -/
theorem ttl_nonneg_and_fresh_witness :
    590 < getTtl (elapse (createRoom "r" "t1" "alice" "private" 5).2 0) ∧
    getTtl (elapse (createRoom "r" "t1" "alice" "private" 5).2 0) ≤ 600 :=
  ttl_nonneg_and_fresh.2.2 "r" "t1" "alice" "private" 5 0 (by decide)

/-- C10: a leave call whose authenticated token is absent from the
metadata's connected-token list (possible because the middleware's atomic
admission stores tokens in a separate set), on a room that exists with a
non-empty user list, changes nothing: the user and connected lists are
rewritten unchanged, the room is not destroyed, a `user_left` event with an
undefined username is emitted, and the call reports success. -/
theorem leave_foreign_token (st : RoomState) (m : RoomMeta) (tok : String)
    (hm : st.meta = some m) (hne : m.users ≠ []) (hmem : tok ∉ m.connected) :
    leaveRoom st tok = (true, st, [Event.user_left none]) := by
  obtain ⟨meta0, mttl, lg, lttl⟩ := st
  have hm' : meta0 = some m := hm
  subst hm'
  have hfix : List.filter (fun t => !decide (t = tok)) m.connected = m.connected := by
    apply List.filter_eq_self.mpr
    intro a ha
    have : a ≠ tok := fun he => hmem (he ▸ ha)
    simpa using this
  simp only [leaveRoom, jsIndexOf_not_mem m.connected tok hmem,
        jsGetElem_neg m.users (-1) (by omega),
        filterIdxNe_neg m.users (-1) (by omega)]
  simp [hne, hfix]

/-- Witness for C10: a token unknown to the room's connected list leaves a
one-member room; nothing changes and `user_left` carries no username. -/
theorem leave_foreign_token_witness :
    leaveRoom stOne "zz" = (true, stOne, [Event.user_left none]) :=
  leave_foreign_token stOne mOne "zz" rfl (by decide) (by decide)

end Chat
